import Mathlib

/-
Shallow embedding of the graph upsert/merge layer of the repository
(src/database/db_manager.py, src/ui/app.py, src/collectors/powerbi_collector.py).
Nodes live in Kuzu node tables keyed by the primary-key property `id`;
`MERGE (n:T ...) SET ...` finds-or-creates the node and rewrites the listed
properties; `MATCH (a ...), (b ...) MERGE (a)-[:R]->(b)` creates the edge only
when both endpoints match and the edge is absent.  Property values are
`Option String` (`none` models a NULL written from a Python `None`).
-/

structure Node where
  table : String
  id : String
  attrs : List (String × Option String)
deriving DecidableEq, Repr

structure Edge where
  table : String
  fromId : String
  toId : String
deriving DecidableEq, Repr

structure Graph where
  nodes : List Node
  rels : List Edge
deriving DecidableEq, Repr

def gEmpty : Graph := { nodes := [], rels := [] }

def nodeKey (t k : String) (n : Node) : Bool :=
  n.table == t && n.id == k

def relKey (rt a b : String) (r : Edge) : Bool :=
  r.table == rt && r.fromId == a && r.toId == b

def nodeExists (g : Graph) (t k : String) : Bool :=
  g.nodes.any (nodeKey t k)

def countNodes (g : Graph) (t k : String) : Nat :=
  g.nodes.countP (nodeKey t k)

def findNode (g : Graph) (t k : String) : Option Node :=
  g.nodes.find? (nodeKey t k)

def relExists (g : Graph) (rt a b : String) : Bool :=
  g.rels.any (relKey rt a b)

/-- One `SET n.a = $v` assignment: replace the property if present, else append it. -/
def setAttr : List (String × Option String) → String × Option String → List (String × Option String)
  | [], u => [u]
  | (k, v) :: rest, u => if k = u.1 then u :: rest else (k, v) :: setAttr rest u

/-- Apply a whole `SET` clause (a list of property assignments) in order. -/
def applyAttrs (as us : List (String × Option String)) : List (String × Option String) :=
  us.foldl setAttr as

def lookupA : List (String × Option String) → String → Option (Option String)
  | [], _ => none
  | (k, v) :: rest, key => if k = key then some v else lookupA rest key

/-- Rewrite the attributes of a node when it is the MERGE target, else leave it. -/
def updAttrs (t k : String) (us : List (String × Option String)) (n : Node) : Node :=
  if nodeKey t k n then { n with attrs := applyAttrs n.attrs us } else n

/-- `MERGE (n:t {id: k}) SET ...`: update the matching node in place, or
append a fresh node carrying the SET properties. -/
def upsertNode (g : Graph) (t k : String) (us : List (String × Option String)) : Graph :=
  if nodeExists g t k then
    { nodes := g.nodes.map (updAttrs t k us), rels := g.rels }
  else
    { nodes := g.nodes ++ [{ table := t, id := k, attrs := applyAttrs [] us }], rels := g.rels }

/-- `MATCH (a:ft {id: a}), (b:tt {id: b}) MERGE (a)-[:rt]->(b)`: a no-op unless
both endpoints exist; the edge is added only when absent. -/
def mergeRel (g : Graph) (rt ft tt a b : String) : Graph :=
  if nodeExists g ft a && nodeExists g tt b then
    if relExists g rt a b then g
    else { nodes := g.nodes, rels := g.rels ++ [{ table := rt, fromId := a, toId := b }] }
  else g

def Graph.attrOf (g : Graph) (t k a : String) : Option (Option String) :=
  match findNode g t k with
  | some n => lookupA n.attrs a
  | none => none

-- ### Association-list lemmas

theorem lookupA_setAttr_self (as : List (String × Option String)) (u : String × Option String) :
    lookupA (setAttr as u) u.1 = some u.2 := by
  induction as with
  | nil => simp [setAttr, lookupA]
  | cons hd tl ih =>
    obtain ⟨k, v⟩ := hd
    by_cases h : k = u.1
    · simp [setAttr, h, lookupA]
    · simp [setAttr, h, lookupA, ih]

theorem lookupA_setAttr_ne (as : List (String × Option String)) (u : String × Option String)
    (key : String) (h : key ≠ u.1) : lookupA (setAttr as u) key = lookupA as key := by
  have hne : ¬ u.1 = key := fun hh => h hh.symm
  induction as with
  | nil => simp [setAttr, lookupA, hne]
  | cons hd tl ih =>
    obtain ⟨k, v⟩ := hd
    by_cases hk : k = u.1
    · subst hk
      simp [setAttr, lookupA, hne]
    · simp [setAttr, hk, lookupA, ih]

theorem lookupA_applyAttrs_notmem (as us : List (String × Option String)) (key : String)
    (h : key ∉ us.map Prod.fst) : lookupA (applyAttrs as us) key = lookupA as key := by
  induction us generalizing as with
  | nil => rfl
  | cons u rest ih =>
    simp only [List.map_cons, List.mem_cons] at h
    push_neg at h
    have step : applyAttrs as (u :: rest) = applyAttrs (setAttr as u) rest := rfl
    rw [step, ih (setAttr as u) h.2, lookupA_setAttr_ne as u key h.1]

theorem lookupA_applyAttrs_mem (as us : List (String × Option String))
    (hnd : (us.map Prod.fst).Nodup) (p : String × Option String) (hp : p ∈ us) :
    lookupA (applyAttrs as us) p.1 = some p.2 := by
  induction us generalizing as with
  | nil => cases hp
  | cons u rest ih =>
    simp only [List.map_cons, List.nodup_cons] at hnd
    have step : applyAttrs as (u :: rest) = applyAttrs (setAttr as u) rest := rfl
    rcases List.mem_cons.mp hp with h | h
    · subst h
      rw [step, lookupA_applyAttrs_notmem _ _ _ hnd.1, lookupA_setAttr_self]
    · rw [step]
      exact ih (setAttr as u) hnd.2 h

-- ### Generic list lemmas used to reason about MERGE over node lists

theorem find?_append_none {α : Type} (p : α → Bool) (l₁ l₂ : List α)
    (h : l₁.find? p = none) : (l₁ ++ l₂).find? p = l₂.find? p := by
  induction l₁ with
  | nil => rfl
  | cons a l ih =>
    cases hp : p a with
    | true => rw [List.find?_cons_of_pos _ hp] at h; cases h
    | false =>
      have hna : ¬ p a = true := by simp [hp]
      rw [List.find?_cons_of_neg _ hna] at h
      rw [List.cons_append, List.find?_cons_of_neg _ hna]
      exact ih h

theorem find?_map_comm {α : Type} (f : α → α) (p : α → Bool)
    (hf : ∀ x, p (f x) = p x) (l : List α) :
    (l.map f).find? p = (l.find? p).map f := by
  induction l with
  | nil => rfl
  | cons a l ih =>
    cases hp : p a with
    | true =>
      have : p (f a) = true := by rw [hf a, hp]
      simp [List.find?_cons_of_pos _ this, List.find?_cons_of_pos _ hp]
    | false =>
      have hfa : ¬ p (f a) = true := by simp [hf a, hp]
      have hna : ¬ p a = true := by simp [hp]
      rw [List.map_cons, List.find?_cons_of_neg _ hfa, List.find?_cons_of_neg _ hna]
      exact ih

theorem any_map_comm {α : Type} (f : α → α) (p : α → Bool)
    (hf : ∀ x, p (f x) = p x) (l : List α) : (l.map f).any p = l.any p := by
  induction l with
  | nil => rfl
  | cons a l ih => simp [List.any_cons, hf, ih]

theorem countP_map_comm {α : Type} (f : α → α) (p : α → Bool)
    (hf : ∀ x, p (f x) = p x) (l : List α) : (l.map f).countP p = l.countP p := by
  induction l with
  | nil => rfl
  | cons a l ih => simp [List.countP_cons, hf, ih]

-- ### Behavior of upsertNode

theorem table_updAttrs (t k : String) (us : List (String × Option String)) (n : Node) :
    (updAttrs t k us n).table = n.table := by
  unfold updAttrs; split <;> rfl

theorem id_updAttrs (t k : String) (us : List (String × Option String)) (n : Node) :
    (updAttrs t k us n).id = n.id := by
  unfold updAttrs; split <;> rfl

theorem nodeKey_updAttrs (t k t2 k2 : String) (us : List (String × Option String)) (n : Node) :
    nodeKey t2 k2 (updAttrs t k us n) = nodeKey t2 k2 n := by
  simp [nodeKey, table_updAttrs, id_updAttrs]

theorem rels_upsertNode (g : Graph) (t k : String) (us : List (String × Option String)) :
    (upsertNode g t k us).rels = g.rels := by
  unfold upsertNode; split <;> rfl

theorem nodeExists_upsertNode_self (g : Graph) (t k : String)
    (us : List (String × Option String)) : nodeExists (upsertNode g t k us) t k = true := by
  unfold upsertNode
  cases h : nodeExists g t k with
  | true =>
    simp only [if_pos]
    show nodeExists _ t k = true
    unfold nodeExists at h ⊢
    rw [any_map_comm _ _ (nodeKey_updAttrs t k t k us)]
    exact h
  | false =>
    simp only [if_neg, Bool.false_eq_true, not_false_iff]
    show nodeExists _ t k = true
    unfold nodeExists
    simp [List.any_append, nodeKey]

theorem nodeExists_upsertNode_ne (g : Graph) (t k t2 k2 : String)
    (us : List (String × Option String)) (hne : ¬ (t2 = t ∧ k2 = k)) :
    nodeExists (upsertNode g t k us) t2 k2 = nodeExists g t2 k2 := by
  unfold upsertNode
  cases h : nodeExists g t k with
  | true =>
    simp only [if_pos]
    show nodeExists _ t2 k2 = _
    unfold nodeExists
    rw [any_map_comm _ _ (nodeKey_updAttrs t k t2 k2 us)]
  | false =>
    simp only [if_neg, Bool.false_eq_true, not_false_iff]
    show nodeExists _ t2 k2 = _
    unfold nodeExists
    have : nodeKey t2 k2 { table := t, id := k, attrs := applyAttrs [] us } = false := by
      simp only [nodeKey, Bool.and_eq_false_iff, beq_eq_false_iff_ne, ne_eq]
      by_cases h2 : t = t2
      · right; intro hk; exact hne ⟨h2.symm, hk.symm⟩
      · left; exact h2
    simp [List.any_append, this]

theorem length_upsertNode_of_exists (g : Graph) (t k : String)
    (us : List (String × Option String)) (h : nodeExists g t k = true) :
    (upsertNode g t k us).nodes.length = g.nodes.length := by
  unfold upsertNode
  rw [if_pos h]
  exact List.length_map _ _

theorem countNodes_upsertNode (g : Graph) (t k : String) (us : List (String × Option String))
    (hle : countNodes g t k ≤ 1) : countNodes (upsertNode g t k us) t k = 1 := by
  unfold upsertNode
  cases h : nodeExists g t k with
  | true =>
    simp only [if_pos]
    show countNodes _ t k = 1
    unfold countNodes at hle ⊢
    rw [countP_map_comm _ _ (nodeKey_updAttrs t k t k us)]
    unfold nodeExists at h
    have hpos : 0 < g.nodes.countP (nodeKey t k) := by
      rw [List.countP_pos_iff]
      simpa [List.any_eq_true] using h
    omega
  | false =>
    simp only [if_neg, Bool.false_eq_true, not_false_iff]
    show countNodes _ t k = 1
    unfold countNodes
    unfold nodeExists at h
    have hz : g.nodes.countP (nodeKey t k) = 0 := by
      rw [List.countP_eq_zero]
      intro a ha hpa
      have : g.nodes.any (nodeKey t k) = true := List.any_eq_true.mpr ⟨a, ha, hpa⟩
      rw [h] at this; cases this
    rw [List.countP_append, hz]
    simp [List.countP_cons, nodeKey]

theorem nodeExists_false_any {g : Graph} {t k : String} (h : nodeExists g t k = false) :
    g.nodes.any (nodeKey t k) = false := h

theorem find?_none_of_nodeExists_false {g : Graph} {t k : String}
    (h : nodeExists g t k = false) : g.nodes.find? (nodeKey t k) = none := by
  rw [List.find?_eq_none]
  intro a ha hpa
  have hany : g.nodes.any (nodeKey t k) = true := List.any_eq_true.mpr ⟨a, ha, hpa⟩
  rw [nodeExists_false_any h] at hany
  cases hany

theorem attrOf_upsertNode (g : Graph) (t k : String) (us : List (String × Option String))
    (hnd : (us.map Prod.fst).Nodup) (p : String × Option String) (hp : p ∈ us) :
    (upsertNode g t k us).attrOf t k p.1 = some p.2 := by
  cases h : nodeExists g t k with
  | true =>
    have hup : upsertNode g t k us =
        { nodes := g.nodes.map (updAttrs t k us), rels := g.rels } := by
      unfold upsertNode; rw [if_pos h]
    rw [hup]
    unfold Graph.attrOf findNode
    simp only
    rw [find?_map_comm _ _ (nodeKey_updAttrs t k t k us)]
    unfold nodeExists at h
    obtain ⟨n0, hn0, hkey⟩ := List.any_eq_true.mp h
    obtain ⟨n1, hfind⟩ : ∃ n1, g.nodes.find? (nodeKey t k) = some n1 := by
      cases hf : g.nodes.find? (nodeKey t k) with
      | some n1 => exact ⟨n1, rfl⟩
      | none =>
        rw [List.find?_eq_none] at hf
        exact absurd hkey (hf n0 hn0)
    have hk1 : nodeKey t k n1 = true := List.find?_some hfind
    rw [hfind]
    show lookupA (updAttrs t k us n1).attrs p.1 = some p.2
    unfold updAttrs
    rw [if_pos hk1]
    exact lookupA_applyAttrs_mem n1.attrs us hnd p hp
  | false =>
    have hup : upsertNode g t k us =
        { nodes := g.nodes ++ [{ table := t, id := k, attrs := applyAttrs [] us }],
          rels := g.rels } := by
      unfold upsertNode; rw [if_neg (by simp [h])]
    rw [hup]
    unfold Graph.attrOf findNode
    simp only
    rw [find?_append_none _ _ _ (find?_none_of_nodeExists_false h)]
    have hknew : nodeKey t k { table := t, id := k, attrs := applyAttrs [] us } = true := by
      simp [nodeKey]
    rw [List.find?_cons_of_pos _ hknew]
    exact lookupA_applyAttrs_mem [] us hnd p hp

theorem mem_upsertNode_attr (g : Graph) (t k : String) (us : List (String × Option String))
    (hnd : (us.map Prod.fst).Nodup) (nd : Node)
    (hmem : nd ∈ (upsertNode g t k us).nodes) (hkey : nodeKey t k nd = true)
    (p : String × Option String) (hp : p ∈ us) : lookupA nd.attrs p.1 = some p.2 := by
  unfold upsertNode at hmem
  cases h : nodeExists g t k with
  | true =>
    rw [if_pos h] at hmem
    obtain ⟨m, hm, hfm⟩ := List.mem_map.mp hmem
    subst hfm
    unfold updAttrs at hkey ⊢
    by_cases hkm : nodeKey t k m = true
    · rw [if_pos hkm]
      exact lookupA_applyAttrs_mem m.attrs us hnd p hp
    · rw [if_neg hkm] at hkey
      exact absurd hkey hkm
  | false =>
    rw [if_neg (by simp [h])] at hmem
    rcases List.mem_append.mp hmem with hold | hnew
    · have hany : g.nodes.any (nodeKey t k) = true := List.any_eq_true.mpr ⟨nd, hold, hkey⟩
      rw [nodeExists_false_any h] at hany
      cases hany
    · have : nd = { table := t, id := k, attrs := applyAttrs [] us } := by
        simpa using hnew
      subst this
      exact lookupA_applyAttrs_mem [] us hnd p hp

-- ### Behavior of mergeRel

theorem nodes_mergeRel (g : Graph) (rt ft tt a b : String) :
    (mergeRel g rt ft tt a b).nodes = g.nodes := by
  unfold mergeRel
  split
  · split <;> rfl
  · rfl

theorem mergeRel_of_missing (g : Graph) (rt ft tt a b : String)
    (h : (nodeExists g ft a && nodeExists g tt b) = false) :
    mergeRel g rt ft tt a b = g := by
  unfold mergeRel
  rw [if_neg (by simp [h])]

theorem mergeRel_of_relExists (g : Graph) (rt ft tt a b : String)
    (h : relExists g rt a b = true) : mergeRel g rt ft tt a b = g := by
  unfold mergeRel
  by_cases hb : (nodeExists g ft a && nodeExists g tt b) = true
  · rw [if_pos hb, if_pos h]
  · rw [if_neg hb]

theorem rels_mergeRel_new (g : Graph) (rt ft tt a b : String)
    (h1 : (nodeExists g ft a && nodeExists g tt b) = true)
    (h2 : relExists g rt a b = false) :
    (mergeRel g rt ft tt a b).rels = g.rels ++ [{ table := rt, fromId := a, toId := b }] := by
  unfold mergeRel
  rw [if_pos h1, if_neg (by simp [h2])]

theorem relExists_append_self (g : Graph) (rt a b : String) :
    relExists { nodes := g.nodes, rels := g.rels ++ [{ table := rt, fromId := a, toId := b }] }
      rt a b = true := by
  unfold relExists
  simp [List.any_append, relKey]

theorem relExists_mergeRel_of_both (g : Graph) (rt ft tt a b : String)
    (h1 : (nodeExists g ft a && nodeExists g tt b) = true) :
    relExists (mergeRel g rt ft tt a b) rt a b = true := by
  cases h2 : relExists g rt a b with
  | true => rw [mergeRel_of_relExists g rt ft tt a b h2]; exact h2
  | false =>
    unfold mergeRel
    rw [if_pos h1, if_neg (by simp [h2])]
    exact relExists_append_self g rt a b

/-
### DBManager write path (src/database/db_manager.py)

Collector records are flat mappings; `record.get(key)` yields `Option String`
(`none` when the key is absent).  The record id is the MERGE key and is taken
as present (every upsert call site keys on it).  `record.get(key, default)`
is `Option.getD`.
-/

/-- Identity record consumed by `upsert_user` (db_manager.py lines 78 to 91). -/
structure UserData where
  id : String
  displayName : Option String
  mail : Option String
  userPrincipalName : Option String

/-- `upsert_user`: MERGE on User id, SET displayName, mail, upn.  The `mail`
parameter is `user_data.get("mail", "")`, so an absent mail is written as
the empty string; `upn` is `user_data.get("userPrincipalName")`, so an absent
upn is written as NULL. -/
def upsert_user (g : Graph) (d : UserData) : Graph :=
  upsertNode g "User" d.id
    [("displayName", d.displayName), ("mail", some (d.mail.getD "")),
     ("upn", d.userPrincipalName)]

/-- Inventory record consumed by `upsert_resource`.  The collector contract
carries `subscriptionId` on the record (app.py line 112 reads it), so it is a
field here; `upsert_resource` never writes it. -/
structure ResData where
  id : String
  name : Option String
  type : Option String
  location : Option String
  resourceGroup : Option String
  subscriptionId : Option String

/-- `upsert_resource` (db_manager.py lines 93 to 104): MERGE on Resource id,
SET name, type, location, resourceGroup. -/
def upsert_resource (g : Graph) (d : ResData) : Graph :=
  upsertNode g "Resource" d.id
    [("name", d.name), ("type", d.type), ("location", d.location),
     ("resourceGroup", d.resourceGroup)]

/-- `link_subscription_resource` (db_manager.py lines 116 to 121):
`MATCH (s:Subscription {..}), (r:Resource {..}) MERGE (s)-[:Contains]->(r)`.
The Python function body has no return statement, so the call evaluates to
`None`; the second component is the returned value, `Option Bool` with
`some b` for a returned boolean and `none` for `None`. -/
def link_subscription_resource (g : Graph) (subId resId : String) : Graph × Option Bool :=
  (mergeRel g "Contains" "Subscription" "Resource" subId resId, none)

/-- Workspace record consumed by `upsert_pbi_workspace`. -/
structure WsData where
  id : String
  name : Option String
  state : Option String
  capacityId : Option String

/-- `upsert_pbi_workspace` (db_manager.py lines 123 to 133): the `capacityId`
parameter is `ws_data.get("capacityId", "")`, so an absent capacityId is
written as the empty string. -/
def upsert_pbi_workspace (g : Graph) (d : WsData) : Graph :=
  upsertNode g "PBIWorkspace" d.id
    [("name", d.name), ("state", d.state), ("capacityId", some (d.capacityId.getD ""))]

/-- Report record consumed by `upsert_pbi_report`. -/
structure ReportData where
  id : String
  name : Option String
  datasetId : Option String

/-- `upsert_pbi_report` (db_manager.py lines 135 to 152): first MERGE the
PBIReport unconditionally, then MATCH workspace and report and MERGE the
PBIContains edge (a no-op when the workspace node is absent). -/
def upsert_pbi_report (g : Graph) (d : ReportData) (workspaceId : String) : Graph :=
  let g1 := upsertNode g "PBIReport" d.id
    [("name", d.name), ("datasetId", some (d.datasetId.getD ""))]
  mergeRel g1 "PBIContains" "PBIWorkspace" "PBIReport" workspaceId d.id

/-- `link_dataset_to_report` (db_manager.py lines 173 to 180): early
`return` (of `None`) when either id is falsy (absent or empty); otherwise
MATCH both endpoints and MERGE the PBIFeeds edge, again returning `None`. -/
def link_dataset_to_report (g : Graph) (datasetId reportId : Option String) :
    Graph × Option Bool :=
  if datasetId.getD "" = "" || reportId.getD "" = "" then (g, none)
  else (mergeRel g "PBIFeeds" "PBIDataset" "PBIReport"
          (datasetId.getD "") (reportId.getD ""), none)

/-
### Synapse artifact batch (db_manager.py lines 182 to 215)

Each artifact is a dict; the loops index it with `p["id"]`, `p["name"]`,
`p["type"]`, `p["workspace"]`, which raises `KeyError` when the key is
absent.  A raised `KeyError` is not caught anywhere in
`upsert_synapse_artifacts`, so it aborts the remaining items and loops; the
mutations already executed stay in the database.  The result pair is the
database state reached plus `some errorMessage` when an exception escaped.
-/

structure RawArtifact where
  id : Option String
  name : Option String
  type : Option String
  workspace : Option String

structure SynapseArtifacts where
  pipelines : List RawArtifact
  notebooks : List RawArtifact
  datasets : List RawArtifact
  linked_services : List RawArtifact

/-- The `pipelines` loop: per item, MERGE the SynapsePipeline node then MATCH
the anchor Resource and MERGE the SynapseContains edge. -/
def synPipelines : Graph → String → List RawArtifact → Graph × Option String
  | g, _, [] => (g, none)
  | g, rid, p :: rest =>
    match p.id, p.name, p.workspace with
    | some i, some nm, some ws =>
      synPipelines
        (mergeRel (upsertNode g "SynapsePipeline" i [("name", some nm), ("workspace", some ws)])
          "SynapseContains" "Resource" "SynapsePipeline" rid i) rid rest
    | none, _, _ => (g, some "KeyError: id")
    | _, none, _ => (g, some "KeyError: name")
    | _, _, none => (g, some "KeyError: workspace")

/-- The `notebooks` loop. -/
def synNotebooks : Graph → String → List RawArtifact → Graph × Option String
  | g, _, [] => (g, none)
  | g, rid, n :: rest =>
    match n.id, n.name, n.workspace with
    | some i, some nm, some ws =>
      synNotebooks
        (mergeRel (upsertNode g "SynapseNotebook" i [("name", some nm), ("workspace", some ws)])
          "SynapseContainsNotebook" "Resource" "SynapseNotebook" rid i) rid rest
    | none, _, _ => (g, some "KeyError: id")
    | _, none, _ => (g, some "KeyError: name")
    | _, _, none => (g, some "KeyError: workspace")

/-- The `datasets` loop (also reads `d["type"]`). -/
def synDatasets : Graph → String → List RawArtifact → Graph × Option String
  | g, _, [] => (g, none)
  | g, rid, d :: rest =>
    match d.id, d.name, d.type, d.workspace with
    | some i, some nm, some ty, some ws =>
      synDatasets
        (mergeRel (upsertNode g "SynapseDataset" i
            [("name", some nm), ("type", some ty), ("workspace", some ws)])
          "SynapseContainsDataset" "Resource" "SynapseDataset" rid i) rid rest
    | none, _, _, _ => (g, some "KeyError: id")
    | _, none, _, _ => (g, some "KeyError: name")
    | _, _, none, _ => (g, some "KeyError: type")
    | _, _, _, none => (g, some "KeyError: workspace")

/-- The `linked_services` loop (also reads `ls["type"]`). -/
def synLinkedServices : Graph → String → List RawArtifact → Graph × Option String
  | g, _, [] => (g, none)
  | g, rid, ls :: rest =>
    match ls.id, ls.name, ls.type, ls.workspace with
    | some i, some nm, some ty, some ws =>
      synLinkedServices
        (mergeRel (upsertNode g "SynapseLinkedService" i
            [("name", some nm), ("type", some ty), ("workspace", some ws)])
          "SynapseContainsLinkedService" "Resource" "SynapseLinkedService" rid i) rid rest
    | none, _, _, _ => (g, some "KeyError: id")
    | _, none, _, _ => (g, some "KeyError: name")
    | _, _, none, _ => (g, some "KeyError: type")
    | _, _, _, none => (g, some "KeyError: workspace")

/-- `upsert_synapse_artifacts` (db_manager.py lines 182 to 215): the four
loops run in order; an exception escaping one loop skips the rest. -/
def upsert_synapse_artifacts (g : Graph) (rid : String) (a : SynapseArtifacts) :
    Graph × Option String :=
  match synPipelines g rid a.pipelines with
  | (g1, some e) => (g1, some e)
  | (g1, none) =>
    match synNotebooks g1 rid a.notebooks with
    | (g2, some e) => (g2, some e)
    | (g2, none) =>
      match synDatasets g2 rid a.datasets with
      | (g3, some e) => (g3, some e)
      | (g3, none) => synLinkedServices g3 rid a.linked_services

/-
### Graph schema registry (db_manager.py lines 15 to 76)

`_create_node_table` / `_create_rel_table` submit one DDL statement each and
catch `RuntimeError`: a message containing "already exists" is silently
treated as success, any other message is logged as a warning, and in both
cases control continues to the next declaration.  The storage engine is
modelled by an oracle `exec : String → Option String` mapping a submitted
DDL statement to `none` (success) or `some message` (a raised RuntimeError
with that message).  `init_schema` returns the list of statements submitted
and the list of warnings logged.
-/

inductive SchemaDecl where
  | nodeT (name schema pk : String)
  | relT (name schema : String)
deriving DecidableEq, Repr

/-- Exactly the declarations issued by `_init_schema`, in source order. -/
def schemaDecls : List SchemaDecl :=
  [ .nodeT "User" "id STRING, displayName STRING, mail STRING, upn STRING" "id",
    .nodeT "M365Group" "id STRING, displayName STRING, mail STRING" "id",
    .nodeT "Subscription" "id STRING, name STRING, state STRING" "id",
    .nodeT "Resource" "id STRING, name STRING, type STRING, location STRING, resourceGroup STRING" "id",
    .nodeT "PBIWorkspace" "id STRING, name STRING, state STRING, capacityId STRING" "id",
    .nodeT "PBIReport" "id STRING, name STRING, datasetId STRING" "id",
    .nodeT "PBIDataset" "id STRING, name STRING, configuredBy STRING" "id",
    .relT "MemberOf" "FROM User TO M365Group",
    .relT "Contains" "FROM Subscription TO Resource",
    .relT "PBIContains" "FROM PBIWorkspace TO PBIReport",
    .relT "PBIContainsDataset" "FROM PBIWorkspace TO PBIDataset",
    .relT "PBIFeeds" "FROM PBIDataset TO PBIReport",
    .nodeT "SynapsePipeline" "id STRING, name STRING, workspace STRING" "id",
    .nodeT "SynapseNotebook" "id STRING, name STRING, workspace STRING" "id",
    .nodeT "SynapseDataset" "id STRING, name STRING, type STRING, workspace STRING" "id",
    .nodeT "SynapseLinkedService" "id STRING, name STRING, type STRING, workspace STRING" "id",
    .relT "SynapseContains" "FROM Resource TO SynapsePipeline",
    .relT "SynapseContainsNotebook" "FROM Resource TO SynapseNotebook",
    .relT "SynapseContainsDataset" "FROM Resource TO SynapseDataset",
    .relT "SynapseContainsLinkedService" "FROM Resource TO SynapseLinkedService",
    .nodeT "ADFPipeline" "id STRING, name STRING, factory STRING" "id",
    .nodeT "ADFDataset" "id STRING, name STRING, type STRING, factory STRING" "id",
    .nodeT "ADFLinkedService" "id STRING, name STRING, type STRING, factory STRING" "id",
    .relT "ADFContainsPipeline" "FROM Resource TO ADFPipeline",
    .relT "ADFContainsDataset" "FROM Resource TO ADFDataset",
    .relT "ADFContainsLinkedService" "FROM Resource TO ADFLinkedService" ]

def ddlOf : SchemaDecl → String
  | .nodeT n s pk => "CREATE NODE TABLE " ++ n ++ "(" ++ s ++ ", PRIMARY KEY (" ++ pk ++ "))"
  | .relT n s => "CREATE REL TABLE " ++ n ++ "(" ++ s ++ ")"

-- Substring test on strings (Python `"already exists" in str(e)`),
-- written over character lists so that it reduces structurally.

def chListPrefixOf : List Char → List Char → Bool
  | [], _ => true
  | _ :: _, [] => false
  | a :: as2, b :: bs => a == b && chListPrefixOf as2 bs

def chListSub (pat : List Char) : List Char → Bool
  | [] => chListPrefixOf pat []
  | c :: rest => chListPrefixOf pat (c :: rest) || chListSub pat rest

def strContainsSub (hay pat : String) : Bool :=
  chListSub pat.toList hay.toList

def warnOf : SchemaDecl → String → String
  | .nodeT n _ _, e => "Could not create node table " ++ n ++ ": " ++ e
  | .relT n _, e => "Could not create rel table " ++ n ++ ": " ++ e

/-- One `_create_node_table` / `_create_rel_table` call: submit the DDL, then
silently swallow an "already exists" RuntimeError, log a warning for any
other RuntimeError, and return normally in every case. -/
def initStep (exec2 : String → Option String) (st : List String × List String)
    (d : SchemaDecl) : List String × List String :=
  match exec2 (ddlOf d) with
  | none => (st.1 ++ [ddlOf d], st.2)
  | some e =>
    if strContainsSub e "already exists" then (st.1 ++ [ddlOf d], st.2)
    else (st.1 ++ [ddlOf d], st.2 ++ [warnOf d e])

/-- `_init_schema`: run every declaration in order. -/
def init_schema (exec2 : String → Option String) : List String × List String :=
  schemaDecls.foldl (initStep exec2) ([], [])

-- Helpers for inspecting the registered schema.

def nodeTableNames : List String :=
  schemaDecls.filterMap fun d => match d with
    | .nodeT n _ _ => some n
    | .relT _ _ => none

def relTableNames : List String :=
  schemaDecls.filterMap fun d => match d with
    | .nodeT _ _ _ => none
    | .relT n _ => some n

def nodeSchemaOf (tbl : String) : Option String :=
  schemaDecls.findSome? fun d => match d with
    | .nodeT n s _ => if n = tbl then some s else none
    | .relT _ _ => none

-- Parse the attribute names out of a DDL column list such as
-- "id STRING, name STRING": split on the commas, then in each field drop
-- leading spaces and keep the first word.

def splitCharAux (sep : Char) : List Char → List Char → List (List Char)
  | [], acc => [acc.reverse]
  | c :: cs, acc =>
    if c == sep then acc.reverse :: splitCharAux sep cs []
    else splitCharAux sep cs (c :: acc)

def dropSpaces : List Char → List Char
  | [] => []
  | c :: cs => if c == ' ' then dropSpaces cs else c :: cs

def takeTilSpace : List Char → List Char
  | [] => []
  | c :: cs => if c == ' ' then [] else c :: takeTilSpace cs

def schemaAttrNames (schema : String) : List String :=
  (splitCharAux ',' schema.toList []).map fun f => String.mk (takeTilSpace (dropSpaces f))

/-- The attribute names the registry declares for a node table. -/
def declaredAttrsOf (tbl : String) : List String :=
  schemaAttrNames ((nodeSchemaOf tbl).getD "")

/-
### DBManager surface and the SQL-schema ingestion call (app.py lines 248 to 298)

`scan_sql` calls `db.upsert_sql_schema(db_id, schema)`.  Python resolves the
attribute on the DBManager instance at call time; `dbManagerMethods` lists
every method the class defines (db_manager.py), and `callDbMethod` models the
attribute lookup: a name outside the list raises AttributeError.
-/

def dbManagerMethods : List String :=
  ["__init__", "_init_schema", "_create_node_table", "_create_rel_table",
   "upsert_user", "upsert_resource", "upsert_subscription",
   "link_subscription_resource", "upsert_pbi_workspace", "upsert_pbi_report",
   "upsert_pbi_dataset", "link_dataset_to_report",
   "upsert_synapse_artifacts", "upsert_adf_artifacts", "get_graph_stats"]

def callDbMethod (name : String) : Except String Unit :=
  if dbManagerMethods.contains name then Except.ok ()
  else Except.error ("AttributeError: " ++ name)

/-- The store step of the scan_sql block (app.py line 285):
`db.upsert_sql_schema(db_id, schema)`. -/
def scanSqlIngest : Except String Unit :=
  callDbMethod "upsert_sql_schema"

-- A single-quote character, built numerically so query texts can embed it.

def sqc : String := String.mk [Char.ofNat 39]

/-- The ADF anchor query (app.py line 218), which returns `r.subscriptionId`
from Resource nodes. -/
def adfAnchorQuery : String :=
  "MATCH (r:Resource) WHERE r.type =~ " ++ sqc ++ "(?i)microsoft.datafactory/factories" ++ sqc
    ++ " RETURN r.id, r.name, r.resourceGroup, r.subscriptionId"

/-
### Asset-catalog substring search (app.py lines 449 to 496)

Each of the four tab2 search queries is a Python f-string that splices
`search_term` directly between single quotes; `conn.execute` is called with
the built string and no parameters dict.  `ExecCall` is the (query text,
bound parameters) pair actually handed to the engine.
-/

structure ExecCall where
  query : String
  params : List (String × String)
deriving DecidableEq, Repr

/-- The tab2 User search call (app.py lines 449 to 454), whitespace
normalized to single spaces. -/
def searchUsersCall (term : String) : ExecCall :=
  { query := "MATCH (u:User) WHERE u.displayName CONTAINS " ++ sqc ++ term ++ sqc
      ++ " OR u.mail CONTAINS " ++ sqc ++ term ++ sqc
      ++ " RETURN " ++ sqc ++ "User" ++ sqc
      ++ " AS Type, u.displayName AS Name, u.mail AS Details LIMIT 20",
    params := [] }

/-- The tab2 Resource search call (app.py lines 463 to 468). -/
def searchResourcesCall (term : String) : ExecCall :=
  { query := "MATCH (r:Resource) WHERE r.name CONTAINS " ++ sqc ++ term ++ sqc
      ++ " OR r.type CONTAINS " ++ sqc ++ term ++ sqc
      ++ " OR r.location CONTAINS " ++ sqc ++ term ++ sqc
      ++ " RETURN " ++ sqc ++ "Resource" ++ sqc
      ++ " AS Type, r.name AS Name, r.type AS ResourceType, r.location AS Location LIMIT 20",
    params := [] }

def countQuotes (s : String) : Nat :=
  s.toList.countP fun c => c == Char.ofNat 39

/-
### Power BI scan polling (powerbi_collector.py lines 74 to 88)

`_wait_for_scan` is `while True:` polling `scanStatus/{scan_id}`; it returns
True on "Succeeded", False on "Failed", and otherwise sleeps two seconds and
polls again, with no attempt counter, timeout or deadline of any kind.
`statuses i` is the status field of the i-th poll response;
`waitPoll statuses i fuel` observes whether the loop has returned within
`fuel` further iterations starting from poll `i` (`none` = still looping).
-/

def waitPoll (statuses : Nat → String) : Nat → Nat → Option Bool
  | _, 0 => none
  | i, fuel + 1 =>
    if statuses i = "Succeeded" then some true
    else if statuses i = "Failed" then some false
    else waitPoll statuses (i + 1) fuel

def wait_for_scan_observed (statuses : Nat → String) (fuel : Nat) : Option Bool :=
  waitPoll statuses 0 fuel

theorem nodeExists_mergeRel (g : Graph) (rt ft tt a b t k : String) :
    nodeExists (mergeRel g rt ft tt a b) t k = nodeExists g t k := by
  unfold nodeExists; rw [nodes_mergeRel]

-- ### Claim C1

/-- Claim C1: for every node type, key and attribute set, invoking the MERGE
plus SET upsert N (at least 1) times with identical arguments leaves exactly
one node with that key, and that node carries the given attributes;
re-ingesting an existing id updates the node in place (the node count does
not grow) and never creates a duplicate; `upsert_resource` in particular is
idempotent on repetition. -/
theorem spec_c1_idempotent_upsert (g : Graph) (t k : String)
    (us : List (String × Option String)) (n : Nat)
    (hnd : (us.map Prod.fst).Nodup) (hle : countNodes g t k ≤ 1) (hn : 1 ≤ n) :
    countNodes ((fun h => upsertNode h t k us)^[n] g) t k = 1 ∧
    (∀ nd ∈ ((fun h => upsertNode h t k us)^[n] g).nodes, nodeKey t k nd = true →
      ∀ p ∈ us, lookupA nd.attrs p.1 = some p.2) ∧
    (nodeExists g t k = true →
      ((fun h => upsertNode h t k us)^[n] g).nodes.length = g.nodes.length) ∧
    (∀ (g2 : Graph) (d : ResData), countNodes g2 "Resource" d.id ≤ 1 →
      countNodes (upsert_resource (upsert_resource g2 d) d) "Resource" d.id = 1) := by
  obtain ⟨m, rfl⟩ : ∃ m, n = m + 1 := ⟨n - 1, (Nat.succ_pred_eq_of_pos hn).symm⟩
  set f := fun h => upsertNode h t k us with hfdef
  have happ : ∀ h : Graph, f h = upsertNode h t k us := fun _ => rfl
  have hcount1 : ∀ h : Graph, countNodes h t k ≤ 1 → countNodes (f h) t k = 1 := by
    intro h hh
    rw [happ]
    exact countNodes_upsertNode h t k us hh
  have hiter : ∀ (m2 : Nat) (h : Graph), countNodes h t k = 1 →
      countNodes (f^[m2] h) t k = 1 := by
    intro m2
    induction m2 with
    | zero => intro h hh; simpa using hh
    | succ m2 ih =>
      intro h hh
      rw [Function.iterate_succ_apply]
      exact ih (f h) (hcount1 h (le_of_eq hh))
  refine ⟨?_, ?_, ?_, ?_⟩
  · rw [Function.iterate_succ_apply]
    exact hiter m (f g) (hcount1 g hle)
  · rw [Function.iterate_succ_apply']
    intro nd hmem hkey p hp
    exact mem_upsertNode_attr (f^[m] g) t k us hnd nd hmem hkey p hp
  · intro hex
    have hlen : ∀ (m2 : Nat) (h : Graph), nodeExists h t k = true →
        (f^[m2] h).nodes.length = h.nodes.length := by
      intro m2
      induction m2 with
      | zero => intro h _; rfl
      | succ m2 ih =>
        intro h hh
        rw [Function.iterate_succ_apply]
        rw [ih (f h) (by rw [happ]; exact nodeExists_upsertNode_self h t k us)]
        rw [happ]
        exact length_upsertNode_of_exists h t k us hh
    exact hlen (m + 1) g hex
  · intro g2 d hle2
    have h1 : countNodes (upsert_resource g2 d) "Resource" d.id = 1 :=
      countNodes_upsertNode g2 "Resource" d.id _ hle2
    exact countNodes_upsertNode (upsert_resource g2 d) "Resource" d.id _ (le_of_eq h1)

/-- A Resource node already present with stale attributes. -/
def c1gW : Graph :=
  { nodes := [{ table := "Resource", id := "r1",
                attrs := [("name", some "old"), ("location", some "westus")] }],
    rels := [] }

/-- Witness for C1: upserting three times over an existing node leaves
exactly one Resource node keyed r1. -/
theorem spec_c1_witness :
    countNodes ((fun h => upsertNode h "Resource" "r1"
      [("name", some "vm1"), ("type", some "vm")])^[3] c1gW) "Resource" "r1" = 1 :=
  (spec_c1_idempotent_upsert c1gW "Resource" "r1"
    [("name", some "vm1"), ("type", some "vm")] 3 (by decide) (by decide) (by decide)).1

-- ### Claim C2

/-- Graph holding both endpoints of a Contains edge, and no edge yet. -/
def c2g0 : Graph :=
  { nodes := [{ table := "Subscription", id := "s1", attrs := [] },
              { table := "Resource", id := "r1", attrs := [] }],
    rels := [] }

/-- Counterexample to C2 as stated: with both endpoints present and no
existing relationship, `link_subscription_resource` does create a new
relationship, yet it evaluates to `None` (not the boolean `True` the claim
requires of a creation flag); with both endpoints missing it also evaluates
to `None`, not `False`. -/
theorem spec_c2_counterexample :
    (link_subscription_resource c2g0 "s1" "r1").2 = none ∧
    (link_subscription_resource c2g0 "s1" "r1").1.rels.length = 1 ∧
    link_subscription_resource gEmpty "nonexistent-a" "nonexistent-b" = (gEmpty, none) := by
  decide

/-- Claim C2 amended: when either endpoint is missing, link creates no
relationship and does not raise; when both endpoints exist it creates the
relationship exactly when it is not already present; but in every case the
function returns `None` — it never returns a boolean creation flag.  The
same holds of `link_dataset_to_report`. -/
theorem spec_c2_link_returns_none (g : Graph) (a b : String) :
    (link_subscription_resource g a b).2 = none ∧
    ((nodeExists g "Subscription" a && nodeExists g "Resource" b) = false →
      (link_subscription_resource g a b).1 = g) ∧
    ((nodeExists g "Subscription" a && nodeExists g "Resource" b) = true →
      relExists (link_subscription_resource g a b).1 "Contains" a b = true ∧
      (relExists g "Contains" a b = true → (link_subscription_resource g a b).1 = g) ∧
      (relExists g "Contains" a b = false →
        (link_subscription_resource g a b).1.rels.length = g.rels.length + 1 ∧
        (link_subscription_resource g a b).1.nodes = g.nodes)) ∧
    (∀ dId rId : Option String, (link_dataset_to_report g dId rId).2 = none) := by
  refine ⟨rfl, ?_, ?_, ?_⟩
  · intro h
    exact mergeRel_of_missing g "Contains" "Subscription" "Resource" a b h
  · intro h
    refine ⟨relExists_mergeRel_of_both g "Contains" "Subscription" "Resource" a b h, ?_, ?_⟩
    · intro h2
      exact mergeRel_of_relExists g "Contains" "Subscription" "Resource" a b h2
    · intro h2
      constructor
      · show (mergeRel g "Contains" "Subscription" "Resource" a b).rels.length
          = g.rels.length + 1
        rw [rels_mergeRel_new g "Contains" "Subscription" "Resource" a b h h2]
        simp
      · exact nodes_mergeRel g "Contains" "Subscription" "Resource" a b
  · intro dId rId
    unfold link_dataset_to_report
    split <;> rfl

/-- Witness for C2 amended, at a graph with both endpoints and no edge. -/
theorem spec_c2_witness :
    (link_subscription_resource c2g0 "s1" "r1").1.rels.length = c2g0.rels.length + 1 :=
  (((spec_c2_link_returns_none c2g0 "s1" "r1").2.2.1 (by decide)).2.2 (by decide)).1

-- ### Claim C9

/-- Claim C9: when a declared optional field is absent from the record
(`mail` on a user, `capacityId` on a workspace), the upsert writes an
explicit empty string for it — over any prior graph state, so a previously
stored non-empty value is overwritten; the attribute is never left unset. -/
theorem nodup_keys3 (a b c : String) (x y z : Option String)
    (hab : a ≠ b) (hac : a ≠ c) (hbc : b ≠ c) :
    (List.map Prod.fst [(a, x), (b, y), (c, z)]).Nodup := by
  simp [List.nodup_cons, hab, hac, hbc]

theorem spec_c9_absent_optional_clobbers (g : Graph) (u : UserData) (w : WsData)
    (hm : u.mail = none) (hc : w.capacityId = none) :
    (upsert_user g u).attrOf "User" u.id "mail" = some (some "") ∧
    (upsert_pbi_workspace g w).attrOf "PBIWorkspace" w.id "capacityId" = some (some "") := by
  constructor
  · unfold upsert_user
    rw [hm]
    simp only [Option.getD_none]
    exact attrOf_upsertNode g "User" u.id
      [("displayName", u.displayName), ("mail", some ""), ("upn", u.userPrincipalName)]
      (nodup_keys3 _ _ _ _ _ _ (by decide) (by decide) (by decide)) ("mail", some "")
      (List.mem_cons_of_mem _ (List.mem_cons_self _ _))
  · unfold upsert_pbi_workspace
    rw [hc]
    simp only [Option.getD_none]
    exact attrOf_upsertNode g "PBIWorkspace" w.id
      [("name", w.name), ("state", w.state), ("capacityId", some "")]
      (nodup_keys3 _ _ _ _ _ _ (by decide) (by decide) (by decide)) ("capacityId", some "")
      (List.mem_cons_of_mem _ (List.mem_cons_of_mem _ (List.mem_cons_self _ _)))

/-- Prior state: the user already has a non-empty mail, the workspace a
non-empty capacityId. -/
def c9gW : Graph :=
  { nodes := [{ table := "User", id := "u1", attrs := [("mail", some "bob@contoso.com")] },
              { table := "PBIWorkspace", id := "w1", attrs := [("capacityId", some "cap-9")] }],
    rels := [] }

def c9u : UserData :=
  { id := "u1", displayName := some "Bob", mail := none, userPrincipalName := none }

def c9w : WsData :=
  { id := "w1", name := some "Sales", state := some "Active", capacityId := none }

/-- Witness for C9: re-ingesting records without mail/capacityId overwrites
the stored values with the empty string. -/
theorem spec_c9_witness :
    (upsert_user c9gW c9u).attrOf "User" "u1" "mail" = some (some "") ∧
    (upsert_pbi_workspace c9gW c9w).attrOf "PBIWorkspace" "w1" "capacityId" = some (some "") :=
  spec_c9_absent_optional_clobbers c9gW c9u c9w rfl rfl

-- ### Claim C10

/-- Claim C10: a combined child-upsert-and-link operation whose anchor node
is absent still creates or updates the child node unconditionally and only
omits the containment edge — shown for `upsert_pbi_report` with a missing
PBIWorkspace and for the per-item step of the `upsert_synapse_artifacts`
pipelines loop with a missing anchor Resource. -/
theorem spec_c10_child_upsert_unconditional :
    (∀ (g : Graph) (d : ReportData) (ws : String),
      nodeExists g "PBIWorkspace" ws = false →
      nodeExists (upsert_pbi_report g d ws) "PBIReport" d.id = true ∧
      (upsert_pbi_report g d ws).rels = g.rels) ∧
    (∀ (g : Graph) (rid i nm ws2 : String) (ty : Option String),
      nodeExists g "Resource" rid = false →
      (synPipelines g rid
        [{ id := some i, name := some nm, type := ty, workspace := some ws2 }]).2 = none ∧
      nodeExists (synPipelines g rid
        [{ id := some i, name := some nm, type := ty, workspace := some ws2 }]).1
        "SynapsePipeline" i = true ∧
      (synPipelines g rid
        [{ id := some i, name := some nm, type := ty, workspace := some ws2 }]).1.rels
        = g.rels) := by
  constructor
  · intro g d ws h
    have key : upsert_pbi_report g d ws =
        mergeRel (upsertNode g "PBIReport" d.id
          [("name", d.name), ("datasetId", some (d.datasetId.getD ""))])
          "PBIContains" "PBIWorkspace" "PBIReport" ws d.id := rfl
    set g1 := upsertNode g "PBIReport" d.id
      [("name", d.name), ("datasetId", some (d.datasetId.getD ""))] with hg1
    have hws : nodeExists g1 "PBIWorkspace" ws = false := by
      rw [hg1]
      rw [nodeExists_upsertNode_ne g "PBIReport" d.id "PBIWorkspace" ws _
        (fun hc => absurd hc.1 (by decide))]
      exact h
    have hmr : mergeRel g1 "PBIContains" "PBIWorkspace" "PBIReport" ws d.id = g1 :=
      mergeRel_of_missing g1 _ _ _ ws d.id (by rw [hws]; rfl)
    constructor
    · rw [key, hmr, hg1]
      exact nodeExists_upsertNode_self g "PBIReport" d.id _
    · rw [key, hmr, hg1]
      exact rels_upsertNode g "PBIReport" d.id _
  · intro g rid i nm ws2 ty h
    have key : synPipelines g rid
        [{ id := some i, name := some nm, type := ty, workspace := some ws2 }] =
        (mergeRel (upsertNode g "SynapsePipeline" i
            [("name", some nm), ("workspace", some ws2)])
          "SynapseContains" "Resource" "SynapsePipeline" rid i, none) := rfl
    set g1 := upsertNode g "SynapsePipeline" i
      [("name", some nm), ("workspace", some ws2)] with hg1
    have hanchor : nodeExists g1 "Resource" rid = false := by
      rw [hg1]
      rw [nodeExists_upsertNode_ne g "SynapsePipeline" i "Resource" rid _
        (fun hc => absurd hc.1 (by decide))]
      exact h
    have hmr : mergeRel g1 "SynapseContains" "Resource" "SynapsePipeline" rid i = g1 :=
      mergeRel_of_missing g1 _ _ _ rid i (by rw [hanchor]; rfl)
    refine ⟨by rw [key], ?_, ?_⟩
    · rw [key]
      show nodeExists (mergeRel g1 "SynapseContains" "Resource" "SynapsePipeline" rid i)
        "SynapsePipeline" i = true
      rw [hmr, hg1]
      exact nodeExists_upsertNode_self g "SynapsePipeline" i _
    · rw [key]
      show (mergeRel g1 "SynapseContains" "Resource" "SynapsePipeline" rid i).rels = g.rels
      rw [hmr, hg1]
      exact rels_upsertNode g "SynapsePipeline" i _

/-- Witness for C10 on the empty graph: the report and the pipeline child
are created although their anchors are absent, and no edge appears. -/
theorem spec_c10_witness :
    nodeExists (upsert_pbi_report gEmpty
      { id := "rep1", name := some "R", datasetId := none } "wsX") "PBIReport" "rep1" = true ∧
    (synPipelines gEmpty "ridX"
      [{ id := some "p1", name := some "P", type := none, workspace := some "w" }]).1.rels
      = gEmpty.rels :=
  ⟨(spec_c10_child_upsert_unconditional.1 gEmpty
      { id := "rep1", name := some "R", datasetId := none } "wsX" (by decide)).1,
   (spec_c10_child_upsert_unconditional.2 gEmpty "ridX" "p1" "P" "w" none (by decide)).2.2⟩

-- ### Claim C7

theorem initStep_fst (exec2 : String → Option String) (st : List String × List String)
    (d : SchemaDecl) : (initStep exec2 st d).1 = st.1 ++ [ddlOf d] := by
  unfold initStep
  cases hE : exec2 (ddlOf d) with
  | none => rfl
  | some e =>
    show (if strContainsSub e "already exists" = true then (st.1 ++ [ddlOf d], st.2)
      else (st.1 ++ [ddlOf d], st.2 ++ [warnOf d e])).1 = st.1 ++ [ddlOf d]
    split <;> rfl

theorem initStep_snd_already (exec2 : String → Option String)
    (H : ∀ s e, exec2 s = some e → strContainsSub e "already exists" = true)
    (st : List String × List String) (d : SchemaDecl) : (initStep exec2 st d).2 = st.2 := by
  unfold initStep
  cases hE : exec2 (ddlOf d) with
  | none => rfl
  | some e =>
    show (if strContainsSub e "already exists" = true then (st.1 ++ [ddlOf d], st.2)
      else (st.1 ++ [ddlOf d], st.2 ++ [warnOf d e])).2 = st.2
    rw [if_pos (H _ _ hE)]

theorem foldl_initStep_fst (exec2 : String → Option String) (ds : List SchemaDecl) :
    ∀ st : List String × List String,
      (ds.foldl (initStep exec2) st).1 = st.1 ++ ds.map ddlOf := by
  induction ds with
  | nil => intro st; simp
  | cons d rest ih =>
    intro st
    rw [List.foldl_cons, ih (initStep exec2 st d), initStep_fst]
    simp

theorem foldl_initStep_snd (exec2 : String → Option String)
    (H : ∀ s e, exec2 s = some e → strContainsSub e "already exists" = true)
    (ds : List SchemaDecl) :
    ∀ st : List String × List String, (ds.foldl (initStep exec2) st).2 = st.2 := by
  induction ds with
  | nil => intro st; rfl
  | cons d rest ih =>
    intro st
    rw [List.foldl_cons, ih (initStep exec2 st d), initStep_snd_already exec2 H]

/-- Claim C7: schema initialization submits every declaration no matter what
the storage engine answers (registration never aborts); when every failure
message indicates the type already exists, nothing at all is logged (treated
as success); when every declaration fails with another message, one warning
per declaration is logged and registration still reaches the end; a fully
successful run logs nothing. -/
theorem spec_c7_schema_registry_tolerant :
    (∀ exec2 : String → Option String, (init_schema exec2).1 = schemaDecls.map ddlOf) ∧
    (∀ exec2 : String → Option String,
      (∀ s e, exec2 s = some e → strContainsSub e "already exists" = true) →
      (init_schema exec2).2 = []) ∧
    (init_schema (fun _ => some "boom")).2.length = schemaDecls.length ∧
    (init_schema (fun _ => none)).2 = [] := by
  refine ⟨?_, ?_, by decide, by decide⟩
  · intro exec2
    have h := foldl_initStep_fst exec2 schemaDecls ([], [])
    simpa [init_schema] using h
  · intro exec2 H
    have h := foldl_initStep_snd exec2 H schemaDecls ([], [])
    simpa [init_schema] using h

/-- Witness for C7: an engine that raises "already exists" on every DDL
statement produces an empty warning log. -/
theorem spec_c7_witness :
    (init_schema (fun _ => some "Binder exception: Table already exists.")).2 = [] :=
  spec_c7_schema_registry_tolerant.2.1
    (fun _ => some "Binder exception: Table already exists.")
    (fun _ e h => by
      have h2 := Option.some.inj h
      subst h2
      decide)

-- ### Claim C3

/-- A graph holding the anchor Resource for the synapse batch. -/
def c3g0 : Graph :=
  { nodes := [{ table := "Resource", id := "rid1", attrs := [] }], rels := [] }

/-- Batch of three pipeline artifacts in which the second one lacks the
required `id` key. -/
def c3batch : SynapseArtifacts :=
  { pipelines :=
      [ { id := some "p1", name := some "P1", type := none, workspace := some "w1" },
        { id := none, name := some "P2", type := none, workspace := some "w1" },
        { id := some "p3", name := some "P3", type := none, workspace := some "w1" } ],
    notebooks := [], datasets := [], linked_services := [] }

/-- Claim C3, evaluated at the failing batch: the malformed second item
raises a KeyError out of `upsert_synapse_artifacts` (the exception escapes;
no failure is collected), item 1 has been ingested (node and containment
edge), and item 3 is never ingested — the malformed artifact aborts the rest
of the batch, contradicting the claim. -/
theorem spec_c3_batch_aborts :
    (upsert_synapse_artifacts c3g0 "rid1" c3batch).2 = some "KeyError: id" ∧
    nodeExists (upsert_synapse_artifacts c3g0 "rid1" c3batch).1 "SynapsePipeline" "p1" = true ∧
    relExists (upsert_synapse_artifacts c3g0 "rid1" c3batch).1 "SynapseContains" "rid1" "p1"
      = true ∧
    nodeExists (upsert_synapse_artifacts c3g0 "rid1" c3batch).1 "SynapsePipeline" "p3"
      = false := by
  decide

-- ### Claim C4

/-- Claim C4, evaluated on the embedded tab2 search calls: no call ever
binds parameters (the params list is empty for every term), and a term that
contains quote metacharacters changes the structure of the executed query
text — the quote count of the built User query grows from 6 to 10 and the
injected fragment appears verbatim inside the query — so the search term is
interpolated unescaped, contradicting the claim. -/
theorem spec_c4_search_interpolates :
    (∀ term : String,
      (searchUsersCall term).params = [] ∧ (searchResourcesCall term).params = []) ∧
    countQuotes (searchUsersCall "vm").query = 6 ∧
    countQuotes (searchUsersCall
      ("vm" ++ sqc ++ " OR u.upn CONTAINS " ++ sqc ++ "x")).query = 10 ∧
    strContainsSub (searchUsersCall
      ("vm" ++ sqc ++ " OR u.upn CONTAINS " ++ sqc ++ "x")).query
      " OR u.upn CONTAINS " = true := by
  exact ⟨fun term => ⟨rfl, rfl⟩, by decide, by decide, by decide⟩

-- ### Claim C5

/-- Claim C5, evaluated on the embedded DBManager surface: `scan_sql` calls
`db.upsert_sql_schema`, but DBManager defines no such method, so the call
raises AttributeError; moreover `_init_schema` declares no table/column node
tables and no table-column or foreign-key relationship tables under any of
the names used by the spec or by the UI queries.  The ingestion path can
never upsert a Table or Column node. -/
theorem spec_c5_sql_ingestion_missing :
    scanSqlIngest = Except.error "AttributeError: upsert_sql_schema" ∧
    dbManagerMethods.contains "upsert_sql_schema" = false ∧
    nodeTableNames.contains "Table" = false ∧
    nodeTableNames.contains "SQLTable" = false ∧
    nodeTableNames.contains "Column" = false ∧
    nodeTableNames.contains "SQLColumn" = false ∧
    relTableNames.contains "TableHasColumn" = false ∧
    relTableNames.contains "ForeignKey" = false ∧
    relTableNames.contains "SQLHasColumn" = false ∧
    relTableNames.contains "SQLForeignKey" = false := by
  exact ⟨rfl, by decide⟩

-- ### Claim C6

theorem attrOf_upsertNode_empty_notmem (t k : String) (us : List (String × Option String))
    (a : String) (hnot : a ∉ us.map Prod.fst) :
    (upsertNode gEmpty t k us).attrOf t k a = none := by
  have step1 : findNode (upsertNode gEmpty t k us) t k
      = some { table := t, id := k, attrs := applyAttrs [] us } := by
    show List.find? (nodeKey t k) [{ table := t, id := k, attrs := applyAttrs [] us }]
      = some { table := t, id := k, attrs := applyAttrs [] us }
    rw [List.find?_cons_of_pos _ (by simp [nodeKey])]
  show (match findNode (upsertNode gEmpty t k us) t k with
        | some n => lookupA n.attrs a
        | none => none) = none
  rw [step1]
  show lookupA (applyAttrs [] us) a = none
  rw [lookupA_applyAttrs_notmem [] us a hnot]
  rfl

/-- Claim C6, evaluated on the embedded schema and write path: the Resource
node table is declared with exactly id, name, type, location and
resourceGroup — `subscriptionId` is not among its attributes — and
`upsert_resource` leaves `subscriptionId` unset even when the ingested
record carries one; yet the ADF anchor query does return
`r.subscriptionId`.  This contradicts the claim (and the query cannot bind
the property). -/
theorem spec_c6_resource_lacks_subscription_id :
    declaredAttrsOf "Resource" = ["id", "name", "type", "location", "resourceGroup"] ∧
    (declaredAttrsOf "Resource").contains "subscriptionId" = false ∧
    strContainsSub adfAnchorQuery "r.subscriptionId" = true ∧
    (∀ d : ResData,
      (upsert_resource gEmpty d).attrOf "Resource" d.id "subscriptionId" = none) := by
  refine ⟨by decide, by decide, by decide, ?_⟩
  intro d
  exact attrOf_upsertNode_empty_notmem "Resource" d.id
    [("name", d.name), ("type", d.type), ("location", d.location),
     ("resourceGroup", d.resourceGroup)] "subscriptionId"
    (by
      rw [show List.map Prod.fst
          ([("name", d.name), ("type", d.type), ("location", d.location),
            ("resourceGroup", d.resourceGroup)] : List (String × Option String))
          = ["name", "type", "location", "resourceGroup"] from rfl]
      decide)

-- ### Claim C8

/-- Claim C8, evaluated on the embedded polling loop: against a status
endpoint that answers "Running" on every poll, `_wait_for_scan` has not
returned after any number of iterations — the `while True` loop has no
timeout or attempt bound, so it does not terminate for every status
sequence, contradicting the claim; it does report `False` on a "Failed"
status and `True` on "Succeeded". -/
theorem spec_c8_wait_for_scan_unbounded :
    (∀ fuel : Nat, wait_for_scan_observed (fun _ => "Running") fuel = none) ∧
    wait_for_scan_observed (fun _ => "Failed") 1 = some false ∧
    wait_for_scan_observed (fun _ => "Succeeded") 1 = some true := by
  refine ⟨?_, by decide, by decide⟩
  intro fuel
  unfold wait_for_scan_observed
  suffices h : ∀ (f i : Nat), waitPoll (fun _ => "Running") i f = none from h fuel 0
  intro f
  induction f with
  | zero => intro i; rfl
  | succ f ih =>
    intro i
    show (if ("Running" : String) = "Succeeded" then some true
      else if ("Running" : String) = "Failed" then some false
      else waitPoll (fun _ => "Running") (i + 1) f) = none
    rw [if_neg (by decide), if_neg (by decide)]
    exact ih (i + 1)
